import Mathlib

/-!
Shallow embedding of the manager-agents repository (src/models.py, src/agents.py,
src/main.py, src/api.py) and proofs about the claims of its specification.

External effects (HTTP requests and language-model calls) are modelled by an
explicit oracle record; all repository logic (status checks, task bookkeeping,
the workflow loop, fallbacks, aggregation formatting) is translated faithfully
from the Python source.
-/

set_option maxHeartbeats 1000000

namespace ManagerAgents

/-! ## Data model (src/models.py) -/

/-- `class AgentType(str, Enum)` with values "elizaos", "tron", "goose". -/
inductive AgentType where
  | ELIZAOS
  | TRON
  | GOOSE
deriving DecidableEq, Repr, Fintype

/-- The str value of each enum member of `AgentType`. -/
def AgentType.val : AgentType → String
  | .ELIZAOS => "elizaos"
  | .TRON => "tron"
  | .GOOSE => "goose"

/-- `class TaskStatus(str, Enum)` with values "pending", "in_progress",
"completed", "failed". -/
inductive TaskStatus where
  | PENDING
  | IN_PROGRESS
  | COMPLETED
  | FAILED
deriving DecidableEq, Repr

/-- The str value of each enum member of `TaskStatus`. -/
def TaskStatus.val : TaskStatus → String
  | .PENDING => "pending"
  | .IN_PROGRESS => "in_progress"
  | .COMPLETED => "completed"
  | .FAILED => "failed"

/-- `class AgentTask(BaseModel)`: agent_type, query, status (default PENDING),
optional response, optional error. -/
structure AgentTask where
  agent_type : AgentType
  query : String
  status : TaskStatus := TaskStatus.PENDING
  response : Option String := none
  error : Option String := none
deriving DecidableEq, Repr

/-- `class ManagerState(TypedDict)`.  `required_agents` is a Python `Set`,
modelled as a `Finset`; `messages` is a list of LangChain messages, modelled by
their content strings (finalize only ever appends one AIMessage). -/
structure ManagerState where
  original_query : String
  tasks : List AgentTask
  required_agents : Finset AgentType
  current_agent : Option AgentType
  messages : List String
  final_output : String
deriving DecidableEq

/-- `class RequiredAgent(BaseModel)`: one per-framework verdict parsed out of
the selection language-model call. -/
structure RequiredAgent where
  agent_type : AgentType
  needed : Bool
  reason : String
deriving DecidableEq, Repr

/-! ## HTTP layer (src/agents.py)

`requests.post` either raises (connection error, timeout, ...) or returns a
response carrying a status code and a body.  The only part of the body the code
reads is `response.json()["result"]`; `body_result` is that field when the body
is valid JSON containing it (reading it otherwise raises, which folds into the
exception branch of `process`). -/

/-- An HTTP response as seen by `BaseAgent.process`: its status code, and the
body's `result` field when present (`none` covers a non-JSON body and a JSON
body without a `result` key, both of which raise on access). -/
structure HttpResponse where
  status : Nat
  body_result : Option String
deriving DecidableEq, Repr

/-- Outcome of one `requests.post` call: a response, or an exception message. -/
inductive HttpOutcome where
  | ok (resp : HttpResponse)
  | exn (msg : String)
deriving DecidableEq, Repr

/-- The dict returned by `BaseAgent.process`: either
`{"success": True, "result": r}` or `{"success": False, "error": e}`. -/
inductive ApiResult where
  | success (result : String)
  | failure (error : String)
deriving DecidableEq, Repr

/-- The `success` field of the returned dict. -/
def ApiResult.isSuccess : ApiResult → Bool
  | .success _ => true
  | .failure _ => false

def ELIZAOS_API_ENDPOINT : String := "http://localhost:8000/elizaOS-eliza"
def TRON_API_ENDPOINT : String := "http://localhost:8000/elizaOS-eliza"
def GOOSE_API_ENDPOINT : String := "http://localhost:8000/block-goose"

def ELIZAOS_API_KEY : String := "your-elizaos-api-key-here"
def TRON_API_KEY : String := "your-tron-api-key-here"
def GOOSE_API_KEY : String := "your-goose-api-key-here"

/-- `class BaseAgent`: an endpoint and an API key. -/
structure BaseAgent where
  api_endpoint : String
  api_key : String
deriving DecidableEq, Repr

/-- The network is modelled as a function from (endpoint, query payload) to the
outcome of the POST. -/
def Network : Type := String → String → HttpOutcome

/-- `requests.Response.raise_for_status` raises `HTTPError` exactly when the
status code is in the 4xx or 5xx range (`400 <= status_code < 600`); any
other status, including out-of-range ones like 600+, is returned without
raising. -/
def raise_for_status_raises (status : Nat) : Bool :=
  decide (400 ≤ status ∧ status < 600)

/-- `BaseAgent.process`: POST the query; `raise_for_status` turns 4xx/5xx into
an exception; otherwise read `response.json()["result"]` (raising when the body
has no such field); every exception is caught and stored as the error string. -/
def BaseAgent.process (net : Network) (agent : BaseAgent) (query : String) :
    ApiResult :=
  match net agent.api_endpoint query with
  | .exn msg => .failure msg
  | .ok resp =>
    if raise_for_status_raises resp.status then
      .failure ("HTTPError: status " ++ toString resp.status)
    else
      match resp.body_result with
      | some r => .success r
      | none => .failure "KeyError: result"

def ElizaOSAgent : BaseAgent := ⟨ELIZAOS_API_ENDPOINT, ELIZAOS_API_KEY⟩
def TronAgent : BaseAgent := ⟨TRON_API_ENDPOINT, TRON_API_KEY⟩
def GooseAgent : BaseAgent := ⟨GOOSE_API_ENDPOINT, GOOSE_API_KEY⟩

/-! ## Manager agent (src/main.py, FrameworkManagerAgent) -/

/-- The external effects of one query: the network, the agent-selection
language-model call (its parsed verdicts, or the exception any stage of
`chain.invoke` / result extraction raised), and the aggregation language-model
call (from query and formatted agent responses to the reply content). -/
structure Oracle where
  net : Network
  selection : Except String (List RequiredAgent)
  aggregate : String → String → String

/-- `self.framework_agents` of `FrameworkManagerAgent.__init__`. -/
def framework_agents : AgentType → BaseAgent
  | .ELIZAOS => ElizaOSAgent
  | .TRON => TronAgent
  | .GOOSE => GooseAgent

/-- `FrameworkManagerAgent.determine_required_agents`: on a successful parse,
the set of agent types whose verdict has `needed` true; on any exception, the
fallback `set(AgentType)` (all three agents). -/
def determine_required_agents (selection : Except String (List RequiredAgent)) :
    Finset AgentType :=
  match selection with
  | .ok result_agents =>
      ((result_agents.filter (fun a => a.needed)).map
        (fun a => a.agent_type)).toFinset
  | .error _ => Finset.univ

/-- `FrameworkManagerAgent.process_with_agent`: dispatch to the chosen agent's
`process`. -/
def manager_process_with_agent (net : Network) (agent_type : AgentType)
    (query : String) : ApiResult :=
  (framework_agents agent_type).process net query

/-- The `agent_responses` string built inside
`FrameworkManagerAgent.aggregate_responses`: the COMPLETED tasks' responses,
each prefixed by the upper-cased agent type and " AGENT:", joined by "\n\n".
An absent response renders as Python str(None). -/
def format_agent_responses (completed_tasks : List AgentTask) : String :=
  String.intercalate "\n\n"
    ((completed_tasks.filter (fun task => task.status == TaskStatus.COMPLETED)).map
      (fun task =>
        task.agent_type.val.toUpper ++ " AGENT:\n" ++ task.response.getD "None"))

/-- `FrameworkManagerAgent.aggregate_responses`: format the completed tasks and
invoke the aggregation chain. -/
def aggregate_responses (o : Oracle) (query : String)
    (completed_tasks : List AgentTask) : String :=
  o.aggregate query (format_agent_responses completed_tasks)

/-! ## Graph nodes (src/main.py, create_framework_manager_graph)

Python set iteration order is unspecified, so `initialize` enumerates the
required agents in the fixed enum order; no claim depends on task order.

LangGraph merges each node's returned dict into the running state; the two
`operator.add` channels (`messages`, `final_output`) concatenate the returned
value onto the stored one.  The initialize / select / process nodes return the
whole spread state, so in a real run they re-send `messages` (duplicating its
entries) and re-send `final_output` (a no-op, since it stays "" until
`finalize`).  No claim concerns `messages`, so the embedding models these
three nodes as leaving both channels unchanged; `finalize`, whose returned
dict carries only `final_output` and the one new message, is modelled with the
additive merge exactly. -/

/-- The enum members in declaration order, used to enumerate a set of agent
types deterministically. -/
def AgentType.all : List AgentType := [.ELIZAOS, .TRON, .GOOSE]

/-- `initialize` node: determine the required agents, create one PENDING task
per required agent carrying the original query, reset `current_agent`. -/
def initialize_node (o : Oracle) (state : ManagerState) : ManagerState :=
  let required_agents := determine_required_agents o.selection
  let tasks := (AgentType.all.filter (fun a => a ∈ required_agents)).map
    (fun agent_type =>
      { agent_type := agent_type, query := state.original_query : AgentTask })
  { state with
    tasks := tasks
    required_agents := required_agents
    current_agent := none }

/-- `select_next_agent` node: set `current_agent` to the agent type of the
first PENDING task, or to None when no task is PENDING. -/
def select_next_agent (state : ManagerState) : ManagerState :=
  match state.tasks.find? (fun task => task.status == TaskStatus.PENDING) with
  | some task => { state with current_agent := some task.agent_type }
  | none => { state with current_agent := none }

/-- The updated current task built inside the `process_with_agent` node from
the dispatch result. -/
def update_task (current_task : AgentTask) (result : ApiResult) : AgentTask :=
  match result with
  | .success r =>
      { current_task with response := some r, status := TaskStatus.COMPLETED }
  | .failure e =>
      { current_task with error := some e, status := TaskStatus.FAILED }

/-- `process_with_agent` node: when a current agent is set, find its task
(`next(...)` — the first task whose agent_type matches; in the workflow the
match always exists, and a missing match, where Python would raise
StopIteration, is modelled as the identity), dispatch the query, mark the task
COMPLETED with its response or FAILED with its error, and write it back over
every task of the same agent_type. -/
def process_with_agent (o : Oracle) (state : ManagerState) : ManagerState :=
  match state.current_agent with
  | none => state
  | some current_agent =>
    match state.tasks.find? (fun task => task.agent_type == current_agent) with
    | none => state
    | some current_task =>
      let result :=
        manager_process_with_agent o.net current_task.agent_type
          current_task.query
      let updated := update_task current_task result
      { state with
        tasks := state.tasks.map (fun task =>
          if task.agent_type == current_task.agent_type then updated
          else task) }

/-- `should_continue`: "finish" exactly when no agent is current and no task is
PENDING, else "continue". -/
def should_continue (state : ManagerState) : String :=
  if state.current_agent == none
      && state.tasks.all (fun task => task.status != TaskStatus.PENDING) then
    "finish"
  else
    "continue"

/-- The fixed fallback answer of `finalize`. -/
def no_response_message : String :=
  "Unable to provide a response as all specialized agents encountered errors."

/-- `finalize` node: aggregate the COMPLETED tasks, or emit the fixed fallback
when there are none.  The node returns a partial state; LangGraph merges it
into the running state, concatenating `final_output` (operator.add on str) and
appending the one new message (operator.add on the message list). -/
def finalize (o : Oracle) (state : ManagerState) : ManagerState :=
  let completed_tasks :=
    state.tasks.filter (fun task => task.status == TaskStatus.COMPLETED)
  let final_output :=
    if completed_tasks.isEmpty then no_response_message
    else aggregate_responses o state.original_query completed_tasks
  { state with
    final_output := state.final_output ++ final_output
    messages := state.messages ++
      ["Query processed. Here's the answer:\n\n" ++ final_output] }

/-! ## Workflow execution

The compiled graph runs: entry `initialize`, then `select_next_agent`; the
conditional edge `should_continue` sends "continue" to `process_with_agent`
(which loops back to `select_next_agent`) and "finish" to `finalize`, then END.
The loop is written with fuel; the termination theorem shows the fuel used by
`run_framework_manager` always suffices. -/

/-- The select / process loop of the graph, returning the state at END.  With
fuel exhausted the current state is returned as-is (shown unreachable for the
fuel used below). -/
def loop_run (o : Oracle) : Nat → ManagerState → ManagerState
  | 0, state => state
  | fuel + 1, state =>
    let selected := select_next_agent state
    if should_continue selected == "finish" then finalize o selected
    else loop_run o fuel (process_with_agent o selected)

/-- Every state the graph passes through from `state` on, in order (the
argument of each node application, and the state at END). -/
def loop_trace (o : Oracle) : Nat → ManagerState → List ManagerState
  | 0, state => [state]
  | fuel + 1, state =>
    let selected := select_next_agent state
    if should_continue selected == "finish" then
      [state, selected, finalize o selected]
    else
      state :: selected :: loop_trace o fuel (process_with_agent o selected)

/-- The `initial_state` dict of `run_framework_manager`. -/
def initial_state (query : String) : ManagerState :=
  { original_query := query
    tasks := []
    required_agents := ∅
    current_agent := none
    messages := [query]
    final_output := "" }

/-- `run_framework_manager`: build the graph and invoke it on the initial
state; the result is the final state. -/
def run_framework_manager (o : Oracle) (query : String) : ManagerState :=
  let s1 := initialize_node o (initial_state query)
  loop_run o (s1.tasks.length + 1) s1

/-! ## HTTP endpoint (src/api.py)

`query_manager_agent` returns the full state dict from
`run_framework_manager`; `get_items` wraps it as `{"result": result}`, which
FastAPI serializes to JSON. -/

/-- A JSON value, as serialized by FastAPI. -/
inductive Json where
  | str (s : String)
  | bool (b : Bool)
  | null
  | arr (xs : List Json)
  | obj (fields : List (String × Json))
deriving Repr

/-- Look a key up in a JSON object (none on a non-object). -/
def Json.get? : Json → String → Option Json
  | .obj fields, key => (fields.find? (fun f => f.1 == key)).map (fun f => f.2)
  | _, _ => none

/-- Whether a JSON value is a string. -/
def Json.isStr : Json → Bool
  | .str _ => true
  | _ => false

/-- Serialization of an Optional[str]. -/
def optStrToJson : Option String → Json
  | some s => Json.str s
  | none => Json.null

/-- Serialization of an AgentTask (a pydantic model). -/
def taskToJson (task : AgentTask) : Json :=
  Json.obj
    [("agent_type", Json.str task.agent_type.val),
     ("query", Json.str task.query),
     ("status", Json.str task.status.val),
     ("response", optStrToJson task.response),
     ("error", optStrToJson task.error)]

/-- Serialization of the final ManagerState dict (sets render as arrays, in
enum order since Python set order is unspecified). -/
def stateToJson (s : ManagerState) : Json :=
  Json.obj
    [("original_query", Json.str s.original_query),
     ("tasks", Json.arr (s.tasks.map taskToJson)),
     ("required_agents",
       Json.arr ((AgentType.all.filter (fun a => a ∈ s.required_agents)).map
         (fun a => Json.str a.val))),
     ("current_agent",
       match s.current_agent with
       | some a => Json.str a.val
       | none => Json.null),
     ("messages", Json.arr (s.messages.map Json.str)),
     ("final_output", Json.str s.final_output)]

/-- `get_items` (the POST /query handler): await `query_manager_agent` and
return `{"result": result}`. -/
def get_items (o : Oracle) (query : String) : Json :=
  Json.obj [("result", stateToJson (run_framework_manager o query))]

/-! ## Concrete oracles and states used by witnesses and counterexamples -/

/-- An oracle where the selection call raises, every POST raises, and the
aggregation call returns a tagged concatenation. -/
def oracleAllFail : Oracle :=
  { net := fun _ _ => HttpOutcome.exn "Connection refused"
    selection := Except.error "OutputParserException"
    aggregate := fun q r => "SYNTH[" ++ q ++ "|" ++ r ++ "]" }

/-- An oracle identical to `oracleAllFail` except for the aggregation reply. -/
def oracleAllFail2 : Oracle :=
  { oracleAllFail with aggregate := fun _ _ => "OTHER" }

/-- An oracle where every call succeeds: the selection call picks only the
Tron agent and every POST returns 200 with a result. -/
def oracleHappy : Oracle :=
  { net := fun endpoint q =>
      HttpOutcome.ok ⟨200, some ("reply to " ++ q ++ " from " ++ endpoint)⟩
    selection := Except.ok
      [⟨AgentType.ELIZAOS, false, "not needed"⟩,
       ⟨AgentType.TRON, true, "grid query"⟩,
       ⟨AgentType.GOOSE, false, "not needed"⟩]
    aggregate := fun q r => "SYNTH[" ++ q ++ "|" ++ r ++ "]" }

/-- A state holding one FAILED task, as left by a run whose only dispatch
failed. -/
def stateOneFailed : ManagerState :=
  { original_query := "q"
    tasks := [{ agent_type := AgentType.TRON, query := "q"
                status := TaskStatus.FAILED, error := some "boom" }]
    required_agents := {AgentType.TRON}
    current_agent := none
    messages := ["q"]
    final_output := "" }

/-- A state holding one COMPLETED and one FAILED task. -/
def stateMixed : ManagerState :=
  { original_query := "q"
    tasks := [{ agent_type := AgentType.ELIZAOS, query := "q"
                status := TaskStatus.COMPLETED, response := some "good" },
              { agent_type := AgentType.TRON, query := "q"
                status := TaskStatus.FAILED, error := some "boom" }]
    required_agents := {AgentType.ELIZAOS, AgentType.TRON}
    current_agent := none
    messages := ["q"]
    final_output := "" }

/-- A network on which every POST yields a 200 response with a result. -/
def netOk : Network := fun _ _ => HttpOutcome.ok ⟨200, some "ok"⟩

/-- A network on which every POST yields a 300 response (outside the 2xx
range, yet not raised on by `raise_for_status`) carrying a result field. -/
def net300 : Network := fun _ _ => HttpOutcome.ok ⟨300, some "r"⟩

/-- A state with one COMPLETED and one PENDING task (distinct agent types). -/
def statePending : ManagerState :=
  { original_query := "q"
    tasks := [{ agent_type := AgentType.ELIZAOS, query := "q"
                status := TaskStatus.COMPLETED, response := some "good" },
              { agent_type := AgentType.TRON, query := "q"
                status := TaskStatus.PENDING }]
    required_agents := {AgentType.ELIZAOS, AgentType.TRON}
    current_agent := none
    messages := ["q"]
    final_output := "" }

/-! ## Helper lemmas -/

/-- The number of PENDING tasks: the termination measure of the loop. -/
def pending_count (s : ManagerState) : Nat :=
  s.tasks.countP (fun t => t.status == TaskStatus.PENDING)

lemma update_task_agent_type (t : AgentTask) (r : ApiResult) :
    (update_task t r).agent_type = t.agent_type := by
  cases r <;> rfl

lemma update_task_not_pending (t : AgentTask) (r : ApiResult) :
    (update_task t r).status ≠ TaskStatus.PENDING := by
  cases r <;> simp [update_task]

lemma update_task_not_in_progress (t : AgentTask) (r : ApiResult) :
    (update_task t r).status ≠ TaskStatus.IN_PROGRESS := by
  cases r <;> simp [update_task]

lemma select_tasks_eq (s : ManagerState) :
    (select_next_agent s).tasks = s.tasks := by
  unfold select_next_agent
  cases s.tasks.find? (fun task => task.status == TaskStatus.PENDING) <;> rfl

lemma finalize_tasks_eq (o : Oracle) (s : ManagerState) :
    (finalize o s).tasks = s.tasks := rfl

lemma select_of_find_some {s : ManagerState} {t0 : AgentTask}
    (hf : s.tasks.find? (fun t => t.status == TaskStatus.PENDING) = some t0) :
    select_next_agent s = { s with current_agent := some t0.agent_type } := by
  unfold select_next_agent
  rw [hf]

lemma select_of_find_none {s : ManagerState}
    (hf : s.tasks.find? (fun t => t.status == TaskStatus.PENDING) = none) :
    select_next_agent s = { s with current_agent := none } := by
  unfold select_next_agent
  rw [hf]

/-- When no task is PENDING, the transition after selection is "finish". -/
lemma select_none_finish {s : ManagerState}
    (hf : s.tasks.find? (fun t => t.status == TaskStatus.PENDING) = none) :
    should_continue (select_next_agent s) = "finish" := by
  have hall : s.tasks.all (fun t => t.status != TaskStatus.PENDING) = true := by
    rw [List.all_eq_true]
    intro t ht
    simpa using List.find?_eq_none.mp hf t ht
  rw [select_of_find_none hf]
  simp [should_continue, hall]

lemma should_continue_eq_continue {s : ManagerState}
    (h : should_continue s ≠ "finish") : should_continue s = "continue" := by
  unfold should_continue at h ⊢
  split
  · next hc => rw [if_pos hc] at h; exact absurd rfl h
  · rfl

/-- "finish" means every task is non-PENDING. -/
lemma no_pending_of_finish {s : ManagerState}
    (h : should_continue s = "finish") :
    ∀ t ∈ s.tasks, t.status ≠ TaskStatus.PENDING := by
  intro t ht
  rcases hall : s.tasks.all (fun task => task.status != TaskStatus.PENDING) with
    _ | _
  · exfalso
    rw [should_continue, hall, Bool.and_false] at h
    exact absurd h (by decide)
  · simpa using List.all_eq_true.mp hall t ht

/-- In a task list with pairwise distinct agent types, the search by the
agent type of a member finds exactly that member. -/
lemma find_by_type_eq {l : List AgentTask} {t0 : AgentTask}
    (hnd : (l.map AgentTask.agent_type).Nodup) (hm : t0 ∈ l) :
    l.find? (fun t => t.agent_type == t0.agent_type) = some t0 := by
  induction l with
  | nil => simp at hm
  | cons t rest ih =>
    rw [List.map_cons, List.nodup_cons] at hnd
    obtain ⟨hnotin, hnd'⟩ := hnd
    rcases hb : (t.agent_type == t0.agent_type) with _ | _
    · have ht0 : t0 ∈ rest := by
        rcases List.mem_cons.mp hm with h | h
        · exact absurd (by rw [h]) (beq_eq_false_iff_ne.mp hb)
        · exact h
      rw [List.find?_cons_of_neg _ (by simp [hb])]
      exact ih hnd' ht0
    · have heq : t.agent_type = t0.agent_type := by simpa using hb
      have ht0 : t0 = t := by
        rcases List.mem_cons.mp hm with h | h
        · exact h
        · exact absurd (heq ▸ List.mem_map_of_mem AgentTask.agent_type h)
            hnotin
      rw [List.find?_cons_of_pos _ (by simp [hb]), ht0]

/-! ## Claim theorems -/

/-- C5: `determine_required_agents` returns the set of all three agent types
whenever the selection language-model call or the parsing of its verdicts
raises, and on a successful parse returns exactly the agent types whose
verdict has `needed = true`. -/
theorem determine_required_agents_spec :
    (∀ e, determine_required_agents (Except.error e) = Finset.univ) ∧
    (∀ (l : List RequiredAgent) (a : AgentType),
      a ∈ determine_required_agents (Except.ok l) ↔
        ∃ r ∈ l, r.needed = true ∧ r.agent_type = a) := by
  refine ⟨fun e => rfl, fun l a => ?_⟩
  simp only [determine_required_agents, List.mem_toFinset, List.mem_map,
    List.mem_filter]
  constructor
  · rintro ⟨r, ⟨hm, hn⟩, ht⟩
    exact ⟨r, hm, hn, ht⟩
  · rintro ⟨r, hm, hn, ht⟩
    exact ⟨r, ⟨hm, hn⟩, ht⟩

/-- C8: when no task is COMPLETED, `finalize` sets `final_output` to the fixed
fallback string without consulting the aggregation language model (the output
is the same under any two oracles). -/
theorem finalize_all_failed (o o2 : Oracle) (s : ManagerState)
    (h : ∀ t ∈ s.tasks, t.status ≠ TaskStatus.COMPLETED)
    (h0 : s.final_output = "") :
    (finalize o s).final_output = no_response_message ∧
    finalize o s = finalize o2 s := by
  have hfil : s.tasks.filter (fun t => t.status == TaskStatus.COMPLETED) = [] := by
    rw [List.filter_eq_nil_iff]
    intro t ht
    simpa using h t ht
  constructor
  · simp [finalize, hfil, h0]
  · simp [finalize, hfil]

/-- Witness for `finalize_all_failed` at a concrete all-failed state. -/
theorem finalize_all_failed_witness :
    (finalize oracleAllFail stateOneFailed).final_output = no_response_message ∧
    finalize oracleAllFail stateOneFailed = finalize oracleAllFail2 stateOneFailed :=
  finalize_all_failed oracleAllFail oracleAllFail2 stateOneFailed
    (by decide) (by rfl)

/-- C7: when at least one task is COMPLETED, the text `finalize` hands to the
aggregation language-model call is built from exactly the COMPLETED tasks of
the state — each response prefixed by its upper-cased agent type and joined by
blank lines — so FAILED tasks' responses and error strings are excluded. -/
theorem finalize_aggregation_input (o : Oracle) (s : ManagerState)
    (h : ∃ t ∈ s.tasks, t.status = TaskStatus.COMPLETED) :
    (finalize o s).final_output = s.final_output ++
      o.aggregate s.original_query
        (String.intercalate "\n\n"
          ((s.tasks.filter (fun t => t.status == TaskStatus.COMPLETED)).map
            (fun t =>
              t.agent_type.val.toUpper ++ " AGENT:\n" ++
                t.response.getD "None"))) := by
  obtain ⟨t0, hm, hc⟩ := h
  have hne : (s.tasks.filter
      (fun t => t.status == TaskStatus.COMPLETED)).isEmpty = false := by
    rcases he : (s.tasks.filter (fun t => t.status == TaskStatus.COMPLETED)) with
      _ | _
    · rw [List.filter_eq_nil_iff] at he
      exact absurd (by simpa using hc) (he t0 hm)
    · rw [he]
      rfl
  simp [finalize, hne, aggregate_responses, format_agent_responses,
    List.filter_filter]

/-- Witness for `finalize_aggregation_input` at a concrete state with one
COMPLETED and one FAILED task. -/
theorem finalize_aggregation_input_witness :
    (finalize oracleAllFail stateMixed).final_output = "".append
      (oracleAllFail.aggregate "q"
        (String.intercalate "\n\n"
          ((stateMixed.tasks.filter
              (fun t => t.status == TaskStatus.COMPLETED)).map
            (fun t =>
              t.agent_type.val.toUpper ++ " AGENT:\n" ++
                t.response.getD "None")))) :=
  finalize_aggregation_input oracleAllFail stateMixed
    ⟨stateMixed.tasks.head (by decide), by decide⟩

/-- C2: whenever `should_continue` answers "finish" (the transition into
`finalize`), no task of the state is PENDING, and `finalize` then produces the
final output from the second language-model call or from the fixed fallback. -/
theorem finish_implies_no_pending (o : Oracle) (s : ManagerState)
    (h : should_continue s = "finish") :
    (∀ t ∈ s.tasks, t.status ≠ TaskStatus.PENDING) ∧
    (finalize o s).final_output = s.final_output ++
      (if (s.tasks.filter
            (fun t => t.status == TaskStatus.COMPLETED)).isEmpty then
        no_response_message
      else
        aggregate_responses o s.original_query
          (s.tasks.filter (fun t => t.status == TaskStatus.COMPLETED))) := by
  constructor
  · intro t ht
    rcases hall : s.tasks.all (fun task => task.status != TaskStatus.PENDING) with
      _ | _
    · exfalso
      rw [should_continue, hall, Bool.and_false] at h
      exact absurd h (by decide)
    · simpa using List.all_eq_true.mp hall t ht
  · rfl

/-- Witness for `finish_implies_no_pending` at a concrete finished state. -/
theorem finish_implies_no_pending_witness :
    (∀ t ∈ stateMixed.tasks, t.status ≠ TaskStatus.PENDING) ∧
    (finalize oracleAllFail stateMixed).final_output = stateMixed.final_output ++
      (if (stateMixed.tasks.filter
            (fun t => t.status == TaskStatus.COMPLETED)).isEmpty then
        no_response_message
      else
        aggregate_responses oracleAllFail stateMixed.original_query
          (stateMixed.tasks.filter
            (fun t => t.status == TaskStatus.COMPLETED))) :=
  finish_implies_no_pending oracleAllFail stateMixed (by decide)

/-- C1 counterexample: `raise_for_status` only raises on 4xx/5xx, so a 300
response (non-2xx) whose JSON body carries a `result` field makes
`BaseAgent.process` return success — the claim says any non-2xx response
yields `{"success": false, ...}`. -/
theorem process_non2xx_success :
    BaseAgent.process net300 ElizaOSAgent "q" = ApiResult.success "r" := rfl

/-- C1 (amended): `BaseAgent.process` always returns a dict: on a response
whose status `raise_for_status` does not raise on (below 400 or at least 600)
and whose JSON body carries a `result` field it returns success with that
field; on a 4xx/5xx response (`raise_for_status`) or any exception it returns
failure with an error message; `process_with_agent` then marks the dispatched
task COMPLETED storing the response, or FAILED storing the error. -/
theorem process_status_and_task_update (net : Network) (agent : BaseAgent)
    (q : String) (o : Oracle) (s : ManagerState) :
    (∀ resp r, net agent.api_endpoint q = HttpOutcome.ok resp →
      resp.status < 400 ∨ 600 ≤ resp.status → resp.body_result = some r →
      agent.process net q = ApiResult.success r) ∧
    (∀ resp, net agent.api_endpoint q = HttpOutcome.ok resp →
      400 ≤ resp.status → resp.status < 600 →
      (agent.process net q).isSuccess = false) ∧
    (∀ msg, net agent.api_endpoint q = HttpOutcome.exn msg →
      agent.process net q = ApiResult.failure msg) ∧
    (∀ a ct, s.current_agent = some a →
      s.tasks.find? (fun t => t.agent_type == a) = some ct →
      update_task ct (manager_process_with_agent o.net ct.agent_type ct.query)
          ∈ (process_with_agent o s).tasks ∧
      (∀ r,
        manager_process_with_agent o.net ct.agent_type ct.query
            = ApiResult.success r →
        (update_task ct
            (manager_process_with_agent o.net ct.agent_type ct.query)).status
              = TaskStatus.COMPLETED ∧
        (update_task ct
            (manager_process_with_agent o.net ct.agent_type ct.query)).response
              = some r) ∧
      (∀ e,
        manager_process_with_agent o.net ct.agent_type ct.query
            = ApiResult.failure e →
        (update_task ct
            (manager_process_with_agent o.net ct.agent_type ct.query)).status
              = TaskStatus.FAILED ∧
        (update_task ct
            (manager_process_with_agent o.net ct.agent_type ct.query)).error
              = some e)) := by
  refine ⟨?_, ?_, ?_, ?_⟩
  · intro resp r hnet hrange hbody
    have hrs : raise_for_status_raises resp.status = false := by
      simp only [raise_for_status_raises, decide_eq_false_iff_not, not_and,
        not_lt]
      omega
    simp [BaseAgent.process, hnet, hrs, hbody]
  · intro resp hnet hge hlt
    have hrs : raise_for_status_raises resp.status = true := by
      simp only [raise_for_status_raises, decide_eq_true_eq]
      omega
    simp [BaseAgent.process, hnet, hrs, ApiResult.isSuccess]
  · intro msg hnet
    simp [BaseAgent.process, hnet]
  · intro a ct hca hfind
    have hmem := List.mem_of_find?_eq_some hfind
    refine ⟨?_, ?_, ?_⟩
    · unfold process_with_agent
      rw [hca]
      simp only [hfind]
      have himg :
          (fun task => if task.agent_type == ct.agent_type then
            update_task ct
              (manager_process_with_agent o.net ct.agent_type ct.query)
          else task) ct =
            update_task ct
              (manager_process_with_agent o.net ct.agent_type ct.query) := by
        simp
      exact List.mem_map.mpr ⟨ct, hmem, himg⟩
    · intro r hr
      rw [hr]
      exact ⟨rfl, rfl⟩
    · intro e he
      rw [he]
      exact ⟨rfl, rfl⟩

/-- Witness for `process_status_and_task_update`: a 200 response carrying a
result yields success with that result. -/
theorem process_status_and_task_update_witness :
    BaseAgent.process netOk ElizaOSAgent "q" = ApiResult.success "ok" :=
  (process_status_and_task_update netOk ElizaOSAgent "q" oracleAllFail
    stateMixed).1 ⟨200, some "ok"⟩ "ok" rfl (by decide) rfl

/-- C3 counterexample: on a concrete run (selection fails, so all three
agents are tried; every POST raises; the fallback answer is emitted) the
`result` field of the `/query` response is the serialized workflow state — a
JSON object — not a string. -/
theorem query_endpoint_result_not_string :
    ((get_items oracleAllFail "q").get? "result").map Json.isStr
      = some false := by
  rfl

/-- C3 (amended): the `/query` endpoint returns a JSON object whose `result`
field is the serialized final workflow state (an object, never a string); the
merged prose answer lives in its `final_output` field. -/
theorem query_endpoint_result_shape (o : Oracle) (q : String) :
    (get_items o q).get? "result" =
      some (stateToJson (run_framework_manager o q)) ∧
    Json.isStr (stateToJson (run_framework_manager o q)) = false ∧
    (stateToJson (run_framework_manager o q)).get? "final_output" =
      some (Json.str (run_framework_manager o q).final_output) :=
  ⟨rfl, rfl, rfl⟩

/-- C10: every workflow node preserves `original_query`, and every task
created by the initialize node carries it as its `query`. -/
theorem original_query_preserved (o : Oracle) (s : ManagerState) :
    (initialize_node o s).original_query = s.original_query ∧
    (select_next_agent s).original_query = s.original_query ∧
    (process_with_agent o s).original_query = s.original_query ∧
    (finalize o s).original_query = s.original_query ∧
    ∀ t ∈ (initialize_node o s).tasks, t.query = s.original_query := by
  refine ⟨rfl, ?_, ?_, rfl, ?_⟩
  · unfold select_next_agent
    cases s.tasks.find? (fun task => task.status == TaskStatus.PENDING) <;> rfl
  · cases hca : s.current_agent with
    | none => simp [process_with_agent, hca]
    | some a =>
      cases hfind : s.tasks.find? (fun task => task.agent_type == a) with
      | none => simp [process_with_agent, hca, hfind]
      | some ct => simp [process_with_agent, hca, hfind]
  · intro t ht
    simp only [initialize_node, List.mem_map] at ht
    obtain ⟨a, -, rfl⟩ := ht
    rfl

/-- Witness for `original_query_preserved`: the one task created on a
concrete run carries the original query. -/
theorem original_query_preserved_witness :
    ({ agent_type := AgentType.TRON, query := "hi" : AgentTask }).query
      = (initial_state "hi").original_query :=
  (original_query_preserved oracleHappy (initial_state "hi")).2.2.2.2
    { agent_type := AgentType.TRON, query := "hi" } (by decide)

/-! ## Termination and invariant machinery -/

/-- Replacing the first PENDING task (found by agent type, in a list of
pairwise distinct agent types) by a non-PENDING task decreases the PENDING
count by exactly one. -/
lemma countP_map_replace {l : List AgentTask} {t0 u : AgentTask}
    (hnd : (l.map AgentTask.agent_type).Nodup)
    (hfind : l.find? (fun t => t.status == TaskStatus.PENDING) = some t0)
    (hu : u.status ≠ TaskStatus.PENDING) :
    (l.map (fun t => if t.agent_type == t0.agent_type then u else t)).countP
        (fun t => t.status == TaskStatus.PENDING) + 1 =
      l.countP (fun t => t.status == TaskStatus.PENDING) := by
  induction l with
  | nil => simp at hfind
  | cons t rest ih =>
    rw [List.map_cons, List.nodup_cons] at hnd
    obtain ⟨hnotin, hnd'⟩ := hnd
    rcases hp : (t.status == TaskStatus.PENDING) with _ | _
    · have hfind' :
          rest.find? (fun t => t.status == TaskStatus.PENDING) = some t0 := by
        rwa [List.find?_cons_of_neg _ (by simp [hp])] at hfind
      have ht0mem : t0 ∈ rest := List.mem_of_find?_eq_some hfind'
      have hne : (t.agent_type == t0.agent_type) = false := by
        refine beq_eq_false_iff_ne.mpr (fun heq => hnotin ?_)
        exact heq ▸ List.mem_map_of_mem AgentTask.agent_type ht0mem
      have hhead :
          (if t.agent_type == t0.agent_type then u else t) = t := by
        simp [hne]
      have hih := ih hnd' hfind'
      rw [List.map_cons, hhead, List.countP_cons, List.countP_cons]
      simp only [hp]
      simp at hih ⊢
      omega
    · have ht0 : t0 = t := by
        rw [List.find?_cons_of_pos _ (by simp [hp])] at hfind
        exact (Option.some.inj hfind).symm
      subst ht0
      have hrest :
          rest.map (fun x => if x.agent_type == t0.agent_type then u else x)
            = rest := by
        refine (List.map_congr_left (fun x hx => ?_)).trans (List.map_id rest)
        have hne : (x.agent_type == t0.agent_type) = false := by
          refine beq_eq_false_iff_ne.mpr (fun heq => hnotin ?_)
          exact heq ▸ List.mem_map_of_mem AgentTask.agent_type hx
        simp [hne]
      have hune : (u.status == TaskStatus.PENDING) = false :=
        beq_eq_false_iff_ne.mpr hu
      have hhead :
          (if t0.agent_type == t0.agent_type then u else t0) = u := by
        simp
      rw [List.map_cons, hhead, hrest, List.countP_cons, List.countP_cons]
      simp only [hp, hune]
      simp

/-- One continue iteration (select, then process) removes exactly one PENDING
task. -/
lemma step_pending_count (o : Oracle) (s : ManagerState)
    (hnd : (s.tasks.map AgentTask.agent_type).Nodup)
    (hc : should_continue (select_next_agent s) = "continue") :
    pending_count (process_with_agent o (select_next_agent s)) + 1 =
      pending_count s := by
  cases hf : s.tasks.find? (fun t => t.status == TaskStatus.PENDING) with
  | none =>
    exact absurd ((select_none_finish hf).symm.trans hc) (by decide)
  | some t0 =>
    have ht0mem : t0 ∈ s.tasks := List.mem_of_find?_eq_some hf
    have hsel := select_of_find_some hf
    have hfind1 :
        s.tasks.find? (fun t => t.agent_type == t0.agent_type) = some t0 :=
      find_by_type_eq hnd ht0mem
    rw [hsel]
    unfold pending_count
    simp only [process_with_agent, hfind1]
    exact countP_map_replace hnd hf (update_task_not_pending _ _)

/-- `process_with_agent` preserves the sequence of agent types of the task
list. -/
lemma map_agent_type_process (o : Oracle) (s : ManagerState) :
    (process_with_agent o s).tasks.map AgentTask.agent_type
      = s.tasks.map AgentTask.agent_type := by
  cases hca : s.current_agent with
  | none => simp [process_with_agent, hca]
  | some a =>
    cases hfind : s.tasks.find? (fun task => task.agent_type == a) with
    | none => simp [process_with_agent, hca, hfind]
    | some ct =>
      simp only [process_with_agent, hca, hfind, List.map_map]
      refine List.map_congr_left (fun t ht => ?_)
      rcases hb : (t.agent_type == ct.agent_type) with _ | _
      · simp [Function.comp, hb]
      · have heq : t.agent_type = ct.agent_type := by simpa using hb
        simp [Function.comp, hb, update_task_agent_type, heq]

/-- With pairwise distinct agent types and enough fuel, the loop reaches
`finalize`, applied to a state with no PENDING task. -/
lemma loop_run_finalizes (o : Oracle) :
    ∀ fuel s, (s.tasks.map AgentTask.agent_type).Nodup →
      pending_count s < fuel →
      ∃ s2, loop_run o fuel s = finalize o s2 ∧
        ∀ t ∈ s2.tasks, t.status ≠ TaskStatus.PENDING := by
  intro fuel
  induction fuel with
  | zero => intro s hnd h; omega
  | succ n ih =>
    intro s hnd hlt
    by_cases hfin : should_continue (select_next_agent s) = "finish"
    · refine ⟨select_next_agent s, ?_, no_pending_of_finish hfin⟩
      simp [loop_run, hfin]
    · have hcont := should_continue_eq_continue hfin
      have hstep := step_pending_count o s hnd hcont
      have hnd' : ((process_with_agent o (select_next_agent s)).tasks.map
          AgentTask.agent_type).Nodup := by
        rw [map_agent_type_process, select_tasks_eq]
        exact hnd
      obtain ⟨s2, h1, h2⟩ := ih _ hnd' (by omega)
      refine ⟨s2, ?_, h2⟩
      have hbe : (should_continue (select_next_agent s) == "finish") = false :=
        beq_eq_false_iff_ne.mpr hfin
      simp only [loop_run, hbe, Bool.false_eq_true, if_false]
      exact h1

/-- The agent types of the tasks created by the initialize node, in order. -/
lemma initialize_tasks_map_type (o : Oracle) (s : ManagerState) :
    (initialize_node o s).tasks.map AgentTask.agent_type
      = AgentType.all.filter
          (fun a => a ∈ determine_required_agents o.selection) := by
  simp only [initialize_node, List.map_map]
  exact (List.map_congr_left (fun a _ => rfl)).trans
    (List.map_id _)

/-- The initialize node creates at most one task per agent type. -/
lemma initialize_nodup (o : Oracle) (s : ManagerState) :
    ((initialize_node o s).tasks.map AgentTask.agent_type).Nodup := by
  rw [initialize_tasks_map_type]
  exact List.Nodup.filter _ (by decide)

lemma no_in_progress_process (o : Oracle) (s : ManagerState)
    (h : ∀ t ∈ s.tasks, t.status ≠ TaskStatus.IN_PROGRESS) :
    ∀ t ∈ (process_with_agent o s).tasks,
      t.status ≠ TaskStatus.IN_PROGRESS := by
  cases hca : s.current_agent with
  | none => simpa [process_with_agent, hca] using h
  | some a =>
    cases hfind : s.tasks.find? (fun task => task.agent_type == a) with
    | none => simpa [process_with_agent, hca, hfind] using h
    | some ct =>
      intro t ht
      simp only [process_with_agent, hca, hfind] at ht
      rw [List.mem_map] at ht
      obtain ⟨x, hx, rfl⟩ := ht
      rcases hb : (x.agent_type == ct.agent_type) with _ | _
      · exact h x hx
      · exact update_task_not_in_progress ct
          (manager_process_with_agent o.net ct.agent_type ct.query)

/-- Along the whole loop trace, no task is ever IN_PROGRESS. -/
lemma loop_trace_no_in_progress (o : Oracle) :
    ∀ fuel s, (∀ t ∈ s.tasks, t.status ≠ TaskStatus.IN_PROGRESS) →
      ∀ s2 ∈ loop_trace o fuel s, ∀ t ∈ s2.tasks,
        t.status ≠ TaskStatus.IN_PROGRESS := by
  intro fuel
  induction fuel with
  | zero =>
    intro s h s2 hs2
    simp only [loop_trace, List.mem_singleton] at hs2
    exact hs2 ▸ h
  | succ n ih =>
    intro s h s2 hs2
    have hsel : ∀ t ∈ (select_next_agent s).tasks,
        t.status ≠ TaskStatus.IN_PROGRESS := by
      rw [select_tasks_eq]
      exact h
    simp only [loop_trace] at hs2
    split at hs2
    · simp only [List.mem_cons, List.mem_singleton, List.not_mem_nil,
        or_false] at hs2
      rcases hs2 with rfl | rfl | rfl
      · exact h
      · exact hsel
      · rw [finalize_tasks_eq]
        exact hsel
    · simp only [List.mem_cons] at hs2
      rcases hs2 with rfl | rfl | hmem
      · exact h
      · exact hsel
      · exact ih _ (no_in_progress_process o _ hsel) _ hmem

/-- C4: the select / process loop terminates on any finite task list with
pairwise distinct agent types (as created by the initialize node): every
continue iteration moves exactly one PENDING task to a terminal status, so the
PENDING count strictly decreases, the loop always reaches `finalize` within
the available fuel, and every full run ends in a finalized state with no task
PENDING. -/
theorem workflow_loop_terminates (o : Oracle) (s : ManagerState) (q : String)
    (hnd : (s.tasks.map AgentTask.agent_type).Nodup) :
    (should_continue (select_next_agent s) = "continue" →
      pending_count (process_with_agent o (select_next_agent s)) <
        pending_count s) ∧
    (∀ fuel, pending_count s < fuel →
      ∃ s2, loop_run o fuel s = finalize o s2 ∧
        ∀ t ∈ s2.tasks, t.status ≠ TaskStatus.PENDING) ∧
    (∃ s2, run_framework_manager o q = finalize o s2 ∧
      ∀ t ∈ s2.tasks, t.status ≠ TaskStatus.PENDING) := by
  refine ⟨fun hc => ?_, fun fuel hlt => loop_run_finalizes o fuel s hnd hlt, ?_⟩
  · have := step_pending_count o s hnd hc
    omega
  · unfold run_framework_manager
    apply loop_run_finalizes
    · exact initialize_nodup o (initial_state q)
    · exact Nat.lt_succ_of_le (List.countP_le_length _)

/-- Witness for `workflow_loop_terminates`: on a concrete state with one
PENDING task the continue iteration strictly decreases the PENDING count. -/
theorem workflow_loop_terminates_witness :
    pending_count (process_with_agent oracleHappy
        (select_next_agent statePending)) < pending_count statePending :=
  (workflow_loop_terminates oracleHappy statePending "q" (by decide)).1
    (by decide)

/-- C6: once a task's status is COMPLETED or FAILED, no later node changes its
record: selection and finalization leave the task list untouched, and a
process step following selection rewrites only the PENDING task it dispatched,
returning every non-PENDING task unchanged (status, response and error
included) at its position.  The distinct-agent-types hypothesis this rests on
is established by the initialize node and preserved by every step. -/
theorem terminal_tasks_frozen (o : Oracle) (s : ManagerState)
    (hnd : (s.tasks.map AgentTask.agent_type).Nodup) :
    (select_next_agent s).tasks = s.tasks ∧
    (finalize o s).tasks = s.tasks ∧
    (∀ i (hi : i < s.tasks.length),
      (s.tasks.get ⟨i, hi⟩).status ≠ TaskStatus.PENDING →
      (process_with_agent o (select_next_agent s)).tasks[i]?
        = some (s.tasks.get ⟨i, hi⟩)) ∧
    ((initialize_node o s).tasks.map AgentTask.agent_type).Nodup ∧
    ((process_with_agent o (select_next_agent s)).tasks.map
        AgentTask.agent_type).Nodup := by
  refine ⟨select_tasks_eq s, rfl, ?_, initialize_nodup o s, ?_⟩
  case refine_2 =>
    rw [map_agent_type_process, select_tasks_eq]
    exact hnd
  intro i hi hterm
  cases hf : s.tasks.find? (fun t => t.status == TaskStatus.PENDING) with
  | none =>
    rw [select_of_find_none hf]
    simp [process_with_agent]
  | some t0 =>
    have ht0mem := List.mem_of_find?_eq_some hf
    have hp0 : t0.status = TaskStatus.PENDING := by
      simpa using List.find?_some hf
    have hfind1 := find_by_type_eq hnd ht0mem
    rw [select_of_find_some hf]
    simp only [process_with_agent, hfind1]
    rw [List.getElem?_map, List.getElem?_eq_getElem hi]
    have hx : s.tasks.get ⟨i, hi⟩ ∈ s.tasks := List.get_mem s.tasks i hi
    have hne : ((s.tasks.get ⟨i, hi⟩).agent_type == t0.agent_type) = false := by
      refine beq_eq_false_iff_ne.mpr (fun heq => ?_)
      have hsame := List.inj_on_of_nodup_map hnd hx ht0mem heq
      exact hterm (hsame ▸ hp0)
    simp only [List.get_eq_getElem] at hne
    simp [hne]
    exact fun heq => absurd heq (beq_eq_false_iff_ne.mp hne)

/-- Witness for `terminal_tasks_frozen`: on a concrete state the COMPLETED
task at index 0 is untouched by the select-then-process step. -/
theorem terminal_tasks_frozen_witness :
    (process_with_agent oracleHappy
        (select_next_agent statePending)).tasks[0]?
      = some (statePending.tasks.get ⟨0, by decide⟩) :=
  (terminal_tasks_frozen oracleHappy statePending (by decide)).2.2.1 0
    (by decide) (by decide)

/-- C9: although the status domain contains IN_PROGRESS, no state the
workflow run passes through (from the initialized state to END) holds a task
with that status. -/
theorem no_task_in_progress (o : Oracle) (q : String) :
    ∀ s2 ∈ loop_trace o
        ((initialize_node o (initial_state q)).tasks.length + 1)
        (initialize_node o (initial_state q)),
      ∀ t ∈ s2.tasks, t.status ≠ TaskStatus.IN_PROGRESS := by
  apply loop_trace_no_in_progress
  intro t ht
  simp only [initialize_node, List.mem_map] at ht
  obtain ⟨a, -, rfl⟩ := ht
  exact fun h => TaskStatus.noConfusion h

/-- Witness for `no_task_in_progress` at the first state of a concrete run's
trace and its one task. -/
theorem no_task_in_progress_witness :
    ({ agent_type := AgentType.TRON, query := "hi" : AgentTask }).status
      ≠ TaskStatus.IN_PROGRESS :=
  no_task_in_progress oracleHappy "hi"
    (initialize_node oracleHappy (initial_state "hi")) (by decide)
    { agent_type := AgentType.TRON, query := "hi" } (by decide)

end ManagerAgents
